import Mathlib

/-!
Verification of the conversation loop in src/main.py.

The program is a synchronous read-eval-print chat loop: it reads a line,
strips surrounding whitespace, exits on the sentinel "quit" (compared
case-insensitively), otherwise appends a user turn to the history, calls
the completion service with the whole history, prints the response and
appends an assistant turn; any error raised by the service call is caught,
printed, and terminates the loop.

We embed the loop shallowly: the input stream is a list of lines, the
completion service is a function from the history to `Except String String`
(an `error` result models a raised exception), and one run of the loop is a
structurally recursive function over the input list.  The run result also
records every argument the service was invoked with (the call log) and the
way the loop ended.
-/

/-- Role of a message, `HumanMessage` or `AIMessage` in src/main.py. -/
inductive Role
  | user
  | assistant
deriving DecidableEq, Repr

/-- One message of the conversation: a role together with its text. -/
structure Turn where
  role : Role
  content : String
deriving DecidableEq, Repr

/-- Python `str.isspace` characters removed by `str.strip()`:
space, tab, newline, carriage return, vertical tab, form feed. -/
def pySpace (c : Char) : Bool :=
  c = ' ' || c = '\t' || c = '\n' || c = '\r' || c = '\x0b' || c = '\x0c'

/-- Python `str.strip()`: drop leading and trailing whitespace.
Defined over the character list so the kernel can evaluate it. -/
def pyStrip (s : String) : String :=
  String.mk (((s.data.dropWhile pySpace).reverse.dropWhile pySpace).reverse)

/-- Lower-case one ASCII letter, as Python `str.lower` does on ASCII text. -/
def lowerChar (c : Char) : Char :=
  if 'A' ≤ c && c ≤ 'Z' then Char.ofNat (c.toNat + 32) else c

/-- Python `str.lower()` restricted to ASCII, which is all the loop compares. -/
def pyLower (s : String) : String :=
  String.mk (s.data.map lowerChar)

/-- The sentinel test of line 20 of src/main.py:
`user_input.lower() == "quit"` applied to the already stripped input. -/
def isQuit (t : String) : Bool :=
  pyLower t == "quit"

/-- The farewell printed on the sentinel, line 21 of src/main.py. -/
def farewellLine : String := "Goodbye! 👋"

/-- The assistant output of line 31 of src/main.py:
`print("Assistant:", response.content, "\n")` joins its arguments with
single spaces. -/
def assistantLine (resp : String) : String :=
  "Assistant: " ++ resp ++ " \n"

/-- The error output of line 37 of src/main.py: `print("⚠️ Error:", e)`. -/
def errorLine (e : String) : String :=
  "⚠️ Error: " ++ e

/-- How a run of the loop ended:
`stoppedQuit` - the sentinel was read and the loop broke normally;
`stoppedError` - the service call raised, the handler printed and broke;
`crashedEOF` - `input()` raised (end of stream), which no handler catches. -/
inductive Outcome
  | stoppedQuit
  | stoppedError
  | crashedEOF
deriving DecidableEq, Repr

/-- The observable result of one run of the loop: the final conversation
history, everything printed after the banner, the argument of every
completion-service call in order, and how the run ended. -/
structure RunResult where
  history : List Turn
  outputs : List String
  callLog : List (List Turn)
  outcome : Outcome
deriving DecidableEq, Repr

/-- The process exit status for each outcome: a caught service error ends
with `break`, so `main` returns and the interpreter exits with status 0
exactly as on the sentinel path; an uncaught exception (end of input)
terminates the interpreter with a non-zero status. -/
def exitCode : Outcome → Nat
  | Outcome.stoppedQuit => 0
  | Outcome.stoppedError => 0
  | Outcome.crashedEOF => 1

/-- The `while True` loop of lines 18-38 of src/main.py, run on a finite
input stream.  `svc` is the completion service (`model.invoke`); an
`Except.error` result models a raised exception.  `hist` is `chat_history`,
`outs` the lines printed so far, `log` the service-call arguments so far. -/
def runLoop (svc : List Turn → Except String String) :
    List String → List Turn → List String → List (List Turn) → RunResult
  | [], hist, outs, log =>
      RunResult.mk hist outs log Outcome.crashedEOF
  | line :: rest, hist, outs, log =>
      let t := pyStrip line
      if isQuit t then
        RunResult.mk hist (outs ++ [farewellLine]) log Outcome.stoppedQuit
      else
        let hist1 := hist ++ [Turn.mk Role.user t]
        match svc hist1 with
        | Except.ok resp =>
            runLoop svc rest (hist1 ++ [Turn.mk Role.assistant resp])
              (outs ++ [assistantLine resp]) (log ++ [hist1])
        | Except.error e =>
            RunResult.mk hist1 (outs ++ [errorLine e]) (log ++ [hist1])
              Outcome.stoppedError

/-- A whole program run from the initial empty state, line 16 of
src/main.py (`chat_history = []`). -/
def runMain (svc : List Turn → Except String String)
    (ins : List String) : RunResult :=
  runLoop svc ins [] [] []

/-- Status of the loop viewed as the two-state machine of the spec:
`running` while the `while True` body keeps iterating, `stopped` after a
`break` (sentinel or caught service error). -/
inductive LoopStatus
  | running
  | stopped
deriving DecidableEq, Repr

/-- The loop state for the step-function view: machine status, the
conversation so far, the lines printed so far, the input lines not yet
read, and the number of completion-service calls made so far. -/
structure MState where
  status : LoopStatus
  history : List Turn
  outputs : List String
  pending : List String
  calls : Nat
deriving DecidableEq, Repr

/-- One iteration of the loop body (lines 19-38 of src/main.py) as a step
function on `MState`.  A stopped state is absorbing: the loop body is never
entered again after `break`.  A running state with no pending input blocks
on `input()`; the end-of-stream crash of that case is modelled by
`runLoop`, not here. -/
def stepM (svc : List Turn → Except String String) (s : MState) : MState :=
  match s.status with
  | LoopStatus.stopped => s
  | LoopStatus.running =>
      match s.pending with
      | [] => s
      | line :: rest =>
          let t := pyStrip line
          if isQuit t then
            MState.mk LoopStatus.stopped s.history
              (s.outputs ++ [farewellLine]) rest s.calls
          else
            let hist1 := s.history ++ [Turn.mk Role.user t]
            match svc hist1 with
            | Except.ok resp =>
                MState.mk LoopStatus.running
                  (hist1 ++ [Turn.mk Role.assistant resp])
                  (s.outputs ++ [assistantLine resp]) rest (s.calls + 1)
            | Except.error e =>
                MState.mk LoopStatus.stopped hist1
                  (s.outputs ++ [errorLine e]) rest (s.calls + 1)

/-! ### Unfolding equations, one per branch of the loop body -/

lemma runLoop_nil (svc : List Turn → Except String String)
    (hist : List Turn) (outs : List String) (log : List (List Turn)) :
    runLoop svc [] hist outs log = RunResult.mk hist outs log Outcome.crashedEOF :=
  rfl

lemma runLoop_cons_quit (svc : List Turn → Except String String)
    (line : String) (rest : List String) (hist : List Turn)
    (outs : List String) (log : List (List Turn))
    (hq : isQuit (pyStrip line) = true) :
    runLoop svc (line :: rest) hist outs log
      = RunResult.mk hist (outs ++ [farewellLine]) log Outcome.stoppedQuit := by
  simp [runLoop, hq]

lemma runLoop_cons_ok (svc : List Turn → Except String String)
    (line : String) (rest : List String) (hist : List Turn)
    (outs : List String) (log : List (List Turn)) (resp : String)
    (hq : isQuit (pyStrip line) = false)
    (hs : svc (hist ++ [Turn.mk Role.user (pyStrip line)]) = Except.ok resp) :
    runLoop svc (line :: rest) hist outs log
      = runLoop svc rest
          ((hist ++ [Turn.mk Role.user (pyStrip line)])
            ++ [Turn.mk Role.assistant resp])
          (outs ++ [assistantLine resp])
          (log ++ [hist ++ [Turn.mk Role.user (pyStrip line)]]) := by
  simp [runLoop, hq, hs]

lemma runLoop_cons_err (svc : List Turn → Except String String)
    (line : String) (rest : List String) (hist : List Turn)
    (outs : List String) (log : List (List Turn)) (e : String)
    (hq : isQuit (pyStrip line) = false)
    (hs : svc (hist ++ [Turn.mk Role.user (pyStrip line)]) = Except.error e) :
    runLoop svc (line :: rest) hist outs log
      = RunResult.mk (hist ++ [Turn.mk Role.user (pyStrip line)])
          (outs ++ [errorLine e])
          (log ++ [hist ++ [Turn.mk Role.user (pyStrip line)]])
          Outcome.stoppedError := by
  simp [runLoop, hq, hs]

/-! ### Extension invariants: the loop only ever appends -/

lemma runLoop_history_extends (svc : List Turn → Except String String)
    (ins : List String) (hist : List Turn) (outs : List String)
    (log : List (List Turn)) :
    ∃ t, (runLoop svc ins hist outs log).history = hist ++ t := by
  induction ins generalizing hist outs log with
  | nil => exact ⟨[], by simp [runLoop_nil]⟩
  | cons line rest ih =>
      by_cases hq : isQuit (pyStrip line)
      · exact ⟨[], by simp [runLoop_cons_quit svc line rest hist outs log hq]⟩
      · rcases hs : svc (hist ++ [Turn.mk Role.user (pyStrip line)]) with e | resp
        · refine ⟨[Turn.mk Role.user (pyStrip line)], ?_⟩
          rw [runLoop_cons_err svc line rest hist outs log e
            (Bool.eq_false_iff.mpr hq) hs]
        · obtain ⟨t, ht⟩ := ih
            ((hist ++ [Turn.mk Role.user (pyStrip line)])
              ++ [Turn.mk Role.assistant resp])
            (outs ++ [assistantLine resp])
            (log ++ [hist ++ [Turn.mk Role.user (pyStrip line)]])
          refine ⟨[Turn.mk Role.user (pyStrip line),
            Turn.mk Role.assistant resp] ++ t, ?_⟩
          rw [runLoop_cons_ok svc line rest hist outs log resp
            (Bool.eq_false_iff.mpr hq) hs, ht]
          simp

lemma runLoop_log_extends (svc : List Turn → Except String String)
    (ins : List String) (hist : List Turn) (outs : List String)
    (log : List (List Turn)) :
    ∃ l, (runLoop svc ins hist outs log).callLog = log ++ l := by
  induction ins generalizing hist outs log with
  | nil => exact ⟨[], by simp [runLoop_nil]⟩
  | cons line rest ih =>
      by_cases hq : isQuit (pyStrip line)
      · exact ⟨[], by simp [runLoop_cons_quit svc line rest hist outs log hq]⟩
      · rcases hs : svc (hist ++ [Turn.mk Role.user (pyStrip line)]) with e | resp
        · refine ⟨[hist ++ [Turn.mk Role.user (pyStrip line)]], ?_⟩
          rw [runLoop_cons_err svc line rest hist outs log e
            (Bool.eq_false_iff.mpr hq) hs]
        · obtain ⟨l, hl⟩ := ih
            ((hist ++ [Turn.mk Role.user (pyStrip line)])
              ++ [Turn.mk Role.assistant resp])
            (outs ++ [assistantLine resp])
            (log ++ [hist ++ [Turn.mk Role.user (pyStrip line)]])
          refine ⟨[hist ++ [Turn.mk Role.user (pyStrip line)]] ++ l, ?_⟩
          rw [runLoop_cons_ok svc line rest hist outs log resp
            (Bool.eq_false_iff.mpr hq) hs, hl]
          simp

/-! ### Claim theorems -/

/-- C2: an input whose stripped text, compared case-insensitively, equals
"quit" makes the loop print the farewell and stop, with the conversation,
the call log, and hence the completion service untouched; nothing depends
on the service or on later input, and with an empty starting history the
conversation stays empty. -/
theorem quit_input_stops_without_call
    (svc : List Turn → Except String String)
    (line : String) (rest : List String) (hist : List Turn)
    (outs : List String) (log : List (List Turn))
    (hq : isQuit (pyStrip line) = true) :
    runLoop svc (line :: rest) hist outs log
      = RunResult.mk hist (outs ++ [farewellLine]) log Outcome.stoppedQuit :=
  runLoop_cons_quit svc line rest hist outs log hq

/-- Witness for C2: the mixed-case, whitespace-padded input "  Quit  " as
first input terminates the loop with an empty conversation, no service
call, and only the farewell printed. -/
theorem quit_input_stops_without_call_witness :
    runLoop (fun _ => Except.ok "x") ["  Quit  "] [] [] []
      = RunResult.mk [] [farewellLine] [] Outcome.stoppedQuit :=
  quit_input_stops_without_call (fun _ => Except.ok "x") "  Quit  " [] [] [] []
    (by decide)

/-- C3: when the completion service fails on a non-sentinel input, the run
ends at once with exactly the one user turn of that input appended, no
assistant turn, the error description printed after the fixed prefix,
and no retry (the remaining input `rest` is never touched). -/
theorem service_error_appends_only_user
    (svc : List Turn → Except String String)
    (line : String) (rest : List String) (hist : List Turn)
    (outs : List String) (log : List (List Turn)) (e : String)
    (hq : isQuit (pyStrip line) = false)
    (hs : svc (hist ++ [Turn.mk Role.user (pyStrip line)]) = Except.error e) :
    runLoop svc (line :: rest) hist outs log
      = RunResult.mk (hist ++ [Turn.mk Role.user (pyStrip line)])
          (outs ++ [errorLine e])
          (log ++ [hist ++ [Turn.mk Role.user (pyStrip line)]])
          Outcome.stoppedError :=
  runLoop_cons_err svc line rest hist outs log e hq hs

/-- Witness for C3: input "Hello" with a service raising "quota exceeded"
leaves the conversation as the single user turn and prints the error. -/
theorem service_error_appends_only_user_witness :
    runLoop (fun _ => Except.error "quota exceeded") ["Hello"] [] [] []
      = RunResult.mk [Turn.mk Role.user "Hello"]
          [errorLine "quota exceeded"]
          [[Turn.mk Role.user "Hello"]]
          Outcome.stoppedError :=
  service_error_appends_only_user (fun _ => Except.error "quota exceeded")
    "Hello" [] [] [] [] "quota exceeded" (by decide) rfl

/-- C5: the conversation is append-only: from any reachable history, any
further run of the loop yields a history that extends it on the right, so
earlier turns are never edited, removed, or reordered. -/
theorem conversation_append_only
    (svc : List Turn → Except String String)
    (ins : List String) (hist : List Turn) (outs : List String)
    (log : List (List Turn)) :
    ∃ t, (runLoop svc ins hist outs log).history = hist ++ t :=
  runLoop_history_extends svc ins hist outs log

/-- C6: for input "Hello" with the service returning "Hi there!" the
program prints exactly the line "Assistant: Hi there! \n" and the
conversation afterwards is the user turn "Hello" followed by the
assistant turn "Hi there!". -/
theorem hello_scenario :
    runMain (fun _ => Except.ok "Hi there!") ["Hello", "quit"]
      = RunResult.mk
          [Turn.mk Role.user "Hello", Turn.mk Role.assistant "Hi there!"]
          ["Assistant: Hi there! \n", farewellLine]
          [[Turn.mk Role.user "Hello"]]
          Outcome.stoppedQuit := by
  decide

/-- C7: whenever a run ends on the caught-service-error path, its exit
status is 0, the same status as a sentinel-triggered exit, so the two
termination paths are indistinguishable by exit code. -/
theorem error_exit_same_as_quit
    (svc : List Turn → Except String String)
    (ins : List String) (hist : List Turn) (outs : List String)
    (log : List (List Turn))
    (h : (runLoop svc ins hist outs log).outcome = Outcome.stoppedError) :
    exitCode (runLoop svc ins hist outs log).outcome = 0
    ∧ exitCode (runLoop svc ins hist outs log).outcome
        = exitCode Outcome.stoppedQuit := by
  rw [h]
  exact ⟨rfl, rfl⟩

/-- Witness for C7: a run whose only service call raises ends with exit
status 0, equal to the sentinel path's status. -/
theorem error_exit_same_as_quit_witness :
    exitCode (runLoop (fun _ => Except.error "boom") ["Hello"] [] [] []).outcome = 0
    ∧ exitCode (runLoop (fun _ => Except.error "boom") ["Hello"] [] [] []).outcome
        = exitCode Outcome.stoppedQuit :=
  error_exit_same_as_quit (fun _ => Except.error "boom") ["Hello"] [] [] []
    (by decide)

/-- C10: exhausting the input stream (end-of-file on `input()`) is not
caught by the error handler: the run ends as a crash with nothing printed
and nothing appended, and its exit status is non-zero, unlike both the
sentinel path and the caught-service-error path. -/
theorem eof_crash_not_handled
    (svc : List Turn → Except String String)
    (hist : List Turn) (outs : List String) (log : List (List Turn)) :
    runLoop svc [] hist outs log = RunResult.mk hist outs log Outcome.crashedEOF
    ∧ exitCode Outcome.crashedEOF ≠ 0
    ∧ exitCode Outcome.crashedEOF ≠ exitCode Outcome.stoppedError :=
  ⟨rfl, by decide, by decide⟩

/-! ### Alternation of roles when every call succeeds -/

lemma runLoop_ok_roles (svcf : List Turn → String) (ins : List String)
    (h : ∀ s ∈ ins, isQuit (pyStrip s) = false)
    (hist : List Turn) (outs : List String) (log : List (List Turn)) :
    (runLoop (fun hh => Except.ok (svcf hh)) ins hist outs log).history.map Turn.role
      = hist.map Turn.role
        ++ (List.replicate ins.length ([Role.user, Role.assistant])).flatten := by
  induction ins generalizing hist outs log with
  | nil => simp [runLoop_nil]
  | cons line rest ih =>
      have hq : isQuit (pyStrip line) = false := h line (by simp)
      rw [runLoop_cons_ok (fun hh => Except.ok (svcf hh)) line rest hist outs log
        (svcf (hist ++ [Turn.mk Role.user (pyStrip line)])) hq rfl]
      rw [ih (fun s hs => h s (by simp [hs]))]
      simp [List.replicate_succ, List.append_assoc]

lemma join_replicate_pair_length (n : Nat) (x y : Role) :
    ((List.replicate n ([x, y])).flatten).length = 2 * n := by
  induction n with
  | zero => simp
  | succ k ih =>
      simp [List.replicate_succ, ih]
      omega

/-- C1: when every completion-service call succeeds and no input is the
sentinel, a whole run over N inputs yields a conversation of exactly 2N
turns whose roles are strictly alternating user, assistant, user,
assistant, ..., starting with user. -/
theorem all_ok_alternation (svcf : List Turn → String) (ins : List String)
    (h : ∀ s ∈ ins, isQuit (pyStrip s) = false) :
    (runMain (fun hh => Except.ok (svcf hh)) ins).history.map Turn.role
      = (List.replicate ins.length ([Role.user, Role.assistant])).flatten
    ∧ (runMain (fun hh => Except.ok (svcf hh)) ins).history.length
      = 2 * ins.length := by
  have hr := runLoop_ok_roles svcf ins h [] [] []
  constructor
  · simpa [runMain] using hr
  · have hl := congrArg List.length hr
    simpa [runMain, join_replicate_pair_length, Nat.mul_comm] using hl

/-- Witness for C1: two successful iterations give four turns with roles
user, assistant, user, assistant. -/
theorem all_ok_alternation_witness :
    (runMain (fun _ => Except.ok "ok") ["Hello", "How are you"]).history.map Turn.role
      = (List.replicate (["Hello", "How are you"] : List String).length
          ([Role.user, Role.assistant])).flatten
    ∧ (runMain (fun _ => Except.ok "ok") ["Hello", "How are you"]).history.length
      = 2 * (["Hello", "How are you"] : List String).length :=
  all_ok_alternation (fun _ => "ok") ["Hello", "How are you"] (by decide)

/-- C4: on a non-sentinel input the completion service is invoked with the
whole conversation in order - every turn accumulated so far followed by
the user turn just built from the stripped input as the last element -
and that argument is the next entry of the call log. -/
theorem service_called_with_full_history
    (svc : List Turn → Except String String)
    (line : String) (rest : List String) (hist : List Turn)
    (outs : List String) (log : List (List Turn))
    (hq : isQuit (pyStrip line) = false) :
    ∃ l, (runLoop svc (line :: rest) hist outs log).callLog
        = log ++ [hist ++ [Turn.mk Role.user (pyStrip line)]] ++ l := by
  rcases hs : svc (hist ++ [Turn.mk Role.user (pyStrip line)]) with e | resp
  · refine ⟨[], ?_⟩
    rw [runLoop_cons_err svc line rest hist outs log e hq hs]
    simp
  · obtain ⟨l, hl⟩ := runLoop_log_extends svc rest
      ((hist ++ [Turn.mk Role.user (pyStrip line)])
        ++ [Turn.mk Role.assistant resp])
      (outs ++ [assistantLine resp])
      (log ++ [hist ++ [Turn.mk Role.user (pyStrip line)]])
    refine ⟨l, ?_⟩
    rw [runLoop_cons_ok svc line rest hist outs log resp hq hs, hl]

/-- Witness for C4: with two turns already in the conversation, the next
service call receives those two turns followed by the new user turn. -/
theorem service_called_with_full_history_witness :
    ∃ l, (runLoop (fun _ => Except.ok "ok") ["Hello"]
        [Turn.mk Role.user "Hi", Turn.mk Role.assistant "Yo"] [] []).callLog
      = [] ++ [[Turn.mk Role.user "Hi", Turn.mk Role.assistant "Yo",
          Turn.mk Role.user "Hello"]] ++ l :=
  service_called_with_full_history (fun _ => Except.ok "ok") "Hello" []
    [Turn.mk Role.user "Hi", Turn.mk Role.assistant "Yo"] [] [] (by decide)

/-- C9: the sentinel test is exact equality on the stripped, lowered line,
so every other input - including one that strips to the empty string and
one that merely contains "quit" as a proper substring - is appended to the
conversation as a user turn and triggers a completion-service call. -/
theorem non_sentinel_forwarded
    (svc : List Turn → Except String String)
    (line : String) (rest : List String) (hist : List Turn)
    (outs : List String) (log : List (List Turn))
    (hq : isQuit (pyStrip line) = false) :
    (∃ t, (runLoop svc (line :: rest) hist outs log).history
        = hist ++ [Turn.mk Role.user (pyStrip line)] ++ t)
    ∧ log.length + 1 ≤ (runLoop svc (line :: rest) hist outs log).callLog.length := by
  rcases hs : svc (hist ++ [Turn.mk Role.user (pyStrip line)]) with e | resp
  · rw [runLoop_cons_err svc line rest hist outs log e hq hs]
    constructor
    · exact ⟨[], by simp⟩
    · simp
  · rw [runLoop_cons_ok svc line rest hist outs log resp hq hs]
    constructor
    · obtain ⟨t, ht⟩ := runLoop_history_extends svc rest
        ((hist ++ [Turn.mk Role.user (pyStrip line)])
          ++ [Turn.mk Role.assistant resp])
        (outs ++ [assistantLine resp])
        (log ++ [hist ++ [Turn.mk Role.user (pyStrip line)]])
      refine ⟨[Turn.mk Role.assistant resp] ++ t, ?_⟩
      rw [ht]
      simp
    · obtain ⟨l, hl⟩ := runLoop_log_extends svc rest
        ((hist ++ [Turn.mk Role.user (pyStrip line)])
          ++ [Turn.mk Role.assistant resp])
        (outs ++ [assistantLine resp])
        (log ++ [hist ++ [Turn.mk Role.user (pyStrip line)]])
      rw [hl]
      simp

/-- Witness for C9: a whitespace-only input (stripping to "") and the
input "quit now" are each forwarded - user turn appended, one service
call made. -/
theorem non_sentinel_forwarded_witness :
    ((∃ t, (runLoop (fun _ => Except.ok "ok") ["   "] [] [] []).history
        = [] ++ [Turn.mk Role.user ""] ++ t)
      ∧ ([] : List (List Turn)).length + 1
          ≤ (runLoop (fun _ => Except.ok "ok") ["   "] [] [] []).callLog.length)
    ∧ ((∃ t, (runLoop (fun _ => Except.ok "ok") ["quit now"] [] [] []).history
        = [] ++ [Turn.mk Role.user "quit now"] ++ t)
      ∧ ([] : List (List Turn)).length + 1
          ≤ (runLoop (fun _ => Except.ok "ok") ["quit now"] [] [] []).callLog.length) :=
  ⟨non_sentinel_forwarded (fun _ => Except.ok "ok") "   " [] [] [] [] (by decide),
   non_sentinel_forwarded (fun _ => Except.ok "ok") "quit now" [] [] [] [] (by decide)⟩

/-- C8: the loop is the two-state machine of the spec: a stopped state is
absorbing - the step changes nothing, so no input is read, no service call
is made, no turn is appended - and the only way a running state becomes
stopped is that the next input is the sentinel or the service call on the
extended history raises. -/
theorem two_state_machine (svc : List Turn → Except String String) (s : MState) :
    (s.status = LoopStatus.stopped → stepM svc s = s)
    ∧ ((stepM svc s).status = LoopStatus.stopped →
        s.status = LoopStatus.stopped
        ∨ ∃ line rest, s.pending = line :: rest
            ∧ (isQuit (pyStrip line) = true
               ∨ ∃ e, svc (s.history ++ [Turn.mk Role.user (pyStrip line)])
                   = Except.error e)) := by
  obtain ⟨st, hist, outs, pend, calls⟩ := s
  cases st with
  | stopped => exact ⟨fun _ => rfl, fun _ => Or.inl rfl⟩
  | running =>
      refine ⟨fun hc => (nomatch hc), ?_⟩
      intro hstep
      cases pend with
      | nil => simp [stepM] at hstep
      | cons line rest =>
          cases hqb : isQuit (pyStrip line) with
          | true => exact Or.inr ⟨line, rest, rfl, Or.inl hqb⟩
          | false =>
              rcases hs : svc (hist ++ [Turn.mk Role.user (pyStrip line)]) with e | resp
              · exact Or.inr ⟨line, rest, rfl, Or.inr ⟨e, hs⟩⟩
              · simp [stepM, hqb, hs] at hstep

/-- Witness for C8: a stopped state with input still pending is left
exactly as it is by the step function. -/
theorem two_state_machine_witness :
    stepM (fun _ => Except.ok "x")
        (MState.mk LoopStatus.stopped [] [] ["Hello"] 0)
      = MState.mk LoopStatus.stopped [] [] ["Hello"] 0 :=
  (two_state_machine (fun _ => Except.ok "x")
    (MState.mk LoopStatus.stopped [] [] ["Hello"] 0)).1 rfl
